import Mathlib

/-!
Verification development for pdf_redact: a shallow embedding of
src/pdf_redact.py together with theorems settling the specification claims.

The program redacts account-number-like patterns from a paginated document.
Per page it runs three matching strategies (the document engine's direct
regex search, a word-by-word fallback with the native regex engine, and an
OCR pass over a raster of the page), adds a redaction annotation for every
match, and commits them.  The embedding below translates each function of
the source; external collaborators (the document engine and the OCR engine)
are modelled at their interface, as described in the doc comments.

Conventions of the embedding:
* rectangles use exact rational coordinates (the source uses floats; no
  claim here depends on rounding);
* a compiled regular expression is modelled by an oracle
  matchAt : List Char -> Nat -> Bool telling whether the pattern matches at
  a given start position of a text; Python re.search then means: some start
  position matches (reSearch below), which is the exact search semantics of
  the source.  A case-insensitive oracle models the re.IGNORECASE variant.
-/

namespace PdfRedact

set_option maxRecDepth 100000

/-- A rectangle in page coordinate space, as fitz.Rect (x0, y0, x1, y1). -/
structure Rect where
  x0 : Rat
  y0 : Rat
  x1 : Rat
  y1 : Rat
  deriving DecidableEq

/-- fitz Rect.width: x1 - x0. -/
def Rect.width (r : Rect) : Rat := r.x1 - r.x0

/-- fitz Rect.height: y1 - y0. -/
def Rect.height (r : Rect) : Rat := r.y1 - r.y0

/-- fitz containment: s lies inside r. -/
def Rect.containsRect (r s : Rect) : Bool :=
  decide (r.x0 ≤ s.x0) && decide (r.y0 ≤ s.y0) &&
  decide (s.x1 ≤ r.x1) && decide (s.y1 ≤ r.y1)

/-- Strict containment: r contains s but s does not contain r. -/
def Rect.strictlyContains (r s : Rect) : Bool :=
  r.containsRect s && !(s.containsRect r)

/-- fitz intersection test: the two rectangles have a nonempty common part. -/
def Rect.intersects (r s : Rect) : Bool :=
  decide (max r.x0 s.x0 < min r.x1 s.x1) && decide (max r.y0 s.y0 < min r.y1 s.y1)

/-- Which matcher produced a committed region (spec provenance tag). -/
inductive Provenance where
  | direct
  | fallbackToken
  | ocr
  deriving DecidableEq

/-- A redaction annotation added by page.add_redact_annot: its rectangle,
tagged with the matcher that produced it. -/
structure Redaction where
  rect : Rect
  prov : Provenance
  deriving DecidableEq

/-- One entry of page.get_text("words"): a rectangle and the word text. -/
structure Word where
  rect : Rect
  text : String
  deriving DecidableEq

/-- One raw token of pytesseract image_to_data output: text, confidence and
the pixel box (left, top, width, height) relative to the raster image. -/
structure OcrTok where
  text : String
  conf : Int
  left : Int
  top : Int
  width : Int
  height : Int
  deriving DecidableEq

/-- A compiled regular expression, modelled by its match semantics:
matchAt cs i says whether the pattern matches the text cs starting at
position i (Python re semantics, case-sensitive); matchAtCI is the same
under re.IGNORECASE.  engineSupported records whether the document
engine's own regex search (page.search_for with TEXT_SEARCH_REGEX) can
evaluate this pattern, or raises instead. -/
structure PatternRule where
  src : String
  engineSupported : Bool
  matchAt : List Char → Nat → Bool
  matchAtCI : List Char → Nat → Bool

/-- The observable state of one loaded page: its coordinate rectangle, the
word layer (get_text "words"), the raw OCR tokens the OCR engine yields on
the 300 dpi raster, the raster's pixel dimensions, and whether the OCR
invocation raises (caught by the source and turned into zero tokens). -/
structure Page where
  rect : Rect
  words : List Word
  ocrRaw : List OcrTok
  pixWidth : Int
  pixHeight : Int
  ocrFails : Bool

/-- page.get_text("text"): the native text layer.  Modelled as the word
texts joined by single spaces, keeping the text layer and the word layer of
a page consistent with each other. -/
def pageText (p : Page) : String :=
  String.intercalate " " (p.words.map Word.text)

/-- Python re.search(pattern, s): the pattern matches somewhere inside s,
i.e. at some start position 0 ≤ i ≤ length. -/
def reSearch (p : PatternRule) (s : String) : Bool :=
  (List.range (s.length + 1)).any fun i => p.matchAt s.data i

/-- Python re.search with re.IGNORECASE, as used by the OCR pass. -/
def reSearchCI (p : PatternRule) (s : String) : Bool :=
  (List.range (s.length + 1)).any fun i => p.matchAtCI s.data i

/-- is_likely_scanned_pdf: the stripped native text is shorter than the
threshold (the source calls it with its default threshold of 100). -/
def is_likely_scanned_pdf (page : Page) (text_threshold : Nat) : Bool :=
  decide ((pageText page).trim.length < text_threshold)

/-- The coordinate remap of the OCR pass: pixel box (x, y, w, h) on a
raster of imgW x imgH pixels is scaled linearly into page coordinates,
x0 = (x / imgW) * page width, x1 = ((x + w) / imgW) * page width, and
analogously in y. -/
def remapRect (pageRect : Rect) (imgW imgH x y w h : Int) : Rect :=
  ⟨((x : Rat) / (imgW : Rat)) * pageRect.width,
   ((y : Rat) / (imgH : Rat)) * pageRect.height,
   (((x + w : Int) : Rat) / (imgW : Rat)) * pageRect.width,
   (((y + h : Int) : Rat) / (imgH : Rat)) * pageRect.height⟩

/-- ocr_page_to_get_text_and_boxes: keep a raw token when its confidence
exceeds 60 and its stripped text is non-empty, pairing the stripped text
with the remapped page rectangle; an OCR engine failure is caught and
yields the empty list. -/
def ocr_page_to_get_text_and_boxes (page : Page) : List (String × Rect) :=
  if page.ocrFails then [] else
  page.ocrRaw.filterMap fun t =>
    if t.conf > 60 then
      if t.text.trim ≠ "" then
        some (t.text.trim,
          remapRect page.rect page.pixWidth page.pixHeight t.left t.top t.width t.height)
      else none
    else none

/-- Modelled from the spec: the document engine's regex-capable search over
the page's text layer (section 6), which the source consumes as
page.search_for(pattern, flags=fitz.TEXT_SEARCH_REGEX).  It is modelled at
word granularity: when the engine supports the pattern it returns the
rectangle of every word whose text the pattern matches; otherwise it fails
with the PatternUnsupportedByEngine condition (a raised exception in the
source). -/
def search_for (p : PatternRule) (page : Page) : Except Unit (List Rect) :=
  if p.engineSupported then
    Except.ok ((page.words.filter fun w => reSearch p w.text).map Word.rect)
  else Except.error ()

/-- The body of the first loop of find_and_redact_text_on_page for one
pattern: try the engine search and annotate each hit (provenance direct);
on the engine failure fall back to word-by-word matching with the native
regex engine (provenance fallback-token). -/
def patternRegions (page : Page) (p : PatternRule) : List Redaction :=
  match search_for p page with
  | Except.ok rects => rects.map fun r => { rect := r, prov := Provenance.direct }
  | Except.error _ =>
      (page.words.filter fun w => reSearch p w.text).map
        fun w => { rect := w.rect, prov := Provenance.fallbackToken }

/-- The first (direct or fallback) phase of find_and_redact_text_on_page:
the loop over all patterns, accumulating annotations in order. -/
def textPhase (page : Page) (patterns : List PatternRule) : List Redaction :=
  patterns.foldl (fun acc p => acc ++ patternRegions page p) []

/-- The OCR phase of find_and_redact_text_on_page: for every pattern,
annotate every OCR instance whose text the pattern matches
case-insensitively (provenance ocr). -/
def ocrPhase (patterns : List PatternRule) (inst : List (String × Rect)) : List Redaction :=
  patterns.foldl
    (fun acc p =>
      acc ++ (inst.filter fun ti => reSearchCI p ti.1).map
        fun ti => { rect := ti.2, prov := Provenance.ocr }) []

/-- The condition under which find_and_redact_text_on_page runs the OCR
pass, given the number of annotations made so far: the page looks scanned
(threshold 100), or no annotation was made and the native text is shorter
than 500 characters. -/
def ocrTriggered (page : Page) (redacted_count : Nat) : Bool :=
  is_likely_scanned_pdf page 100 ||
    (decide (redacted_count = 0) && decide ((pageText page).length < 500))

/-- find_and_redact_text_on_page, returning the list of redaction
annotations added to the page (the source's redacted_count is its length;
the source then applies them when the count is positive). -/
def find_and_redact_text_on_page (page : Page) (patterns : List PatternRule) :
    List Redaction :=
  let annots := textPhase page patterns
  if ocrTriggered page annots.length then
    annots ++ ocrPhase patterns (ocr_page_to_get_text_and_boxes page)
  else annots

/-- Modelled from the spec: page.apply_redactions of the document engine
(section 4.6) — committing strips the content under each redacted
rectangle.  Words of the text layer and raw OCR tokens (via their remapped
boxes, standing for the re-rendered raster) are removed when their box
intersects a committed rectangle. -/
def apply_redactions (page : Page) (regions : List Rect) : Page :=
  { page with
    words := page.words.filter fun w => !(regions.any fun r => w.rect.intersects r),
    ocrRaw := page.ocrRaw.filter fun t =>
      !(regions.any fun r =>
        (remapRect page.rect page.pixWidth page.pixHeight t.left t.top t.width t.height).intersects r) }

/-- Modelled from the spec: the encryption state of a document (sections
4.7 and 6) — not encrypted, encrypted but openable with the empty
credential, or requiring a non-empty password. -/
inductive Protection where
  | notEncrypted
  | emptyOpenable
  | passwordRequired
  deriving DecidableEq

/-- A document: its pages and its encryption state. -/
structure Document where
  pages : List Page
  protection : Protection

/-- Modelled from the spec: whether doc.load_page succeeds (section 6).
The engine authenticates with the empty credential at open, so an
empty-openable document behaves like an unencrypted one; loading a page of
a document that requires a non-empty password raises, which the source
catches in its top-level handler. -/
def load_page_ok (doc : Document) : Bool :=
  match doc.protection with
  | Protection.passwordRequired => false
  | _ => true

/-- The outcome of one run of redact_account_numbers_from_pdf: the total
redaction count, how many pages were processed, whether the output file was
written, and whether the top-level exception handler fired. -/
structure RunResult where
  totalRedactions : Nat
  pagesProcessed : Nat
  saved : Bool
  errored : Bool
  deriving DecidableEq

/-- redact_account_numbers_from_pdf: return early when the input path does
not exist; abort (caught exception, nothing written) when the first page
load fails because the document needs a non-empty password; otherwise
process every page and save the output exactly when the total redaction
count is positive. -/
def redact_account_numbers_from_pdf (inputExists : Bool)
    (doc : Document) (patterns : List PatternRule) : RunResult :=
  if !inputExists then { totalRedactions := 0, pagesProcessed := 0, saved := false, errored := false }
  else if !(load_page_ok doc) then
    { totalRedactions := 0, pagesProcessed := 0, saved := false, errored := true }
  else
    let total := (doc.pages.map fun pg => (find_and_redact_text_on_page pg patterns).length).foldl
      (fun a b => a + b) 0
    { totalRedactions := total, pagesProcessed := doc.pages.length,
      saved := decide (0 < total), errored := false }

/-- The no-overlap acceptance test the specification describes for one
candidate against the already-committed set: no strict containment either
way, and for an OCR-provenance candidate no intersection at all. -/
def regionAcceptable (acc : List Redaction) (r : Redaction) : Bool :=
  (acc.all fun a => !(a.rect.strictlyContains r.rect) && !(r.rect.strictlyContains a.rect)) &&
  (if r.prov = Provenance.ocr then acc.all fun a => !(a.rect.intersects r.rect) else true)

/-- The specification's page invariant, checked incrementally over the
committed list in commit order: every region passes regionAcceptable
against the regions committed before it. -/
def noOverlapInvariant : List Redaction → List Redaction → Bool
  | _, [] => true
  | acc, r :: rest => regionAcceptable acc r && noOverlapInvariant (acc ++ [r]) rest

/-- Concatenation of the images of f over a list, in order. -/
def catMap (f : α → List β) : List α → List β
  | [] => []
  | a :: l => f a ++ catMap f l

/-- Does the first list occur as an initial segment of the second. -/
def listStartsWith : List Char → List Char → Bool
  | [], _ => true
  | _ :: _, [] => false
  | a :: as, b :: bs => a == b && listStartsWith as bs

/-- Lower-case every character of a list. -/
def lowerList (l : List Char) : List Char := l.map Char.toLower

/-- A literal pattern: it matches at position i exactly when the needle
occurs there; the case-insensitive oracle compares lower-cased text. -/
def litRule (needle : String) (supported : Bool) : PatternRule :=
  { src := needle
    engineSupported := supported
    matchAt := fun cs i => listStartsWith needle.data (cs.drop i)
    matchAtCI := fun cs i => listStartsWith (lowerList needle.data) (lowerList (cs.drop i)) }

/-- Python re word characters: letters, digits and the underscore. -/
def isWordChar (c : Char) : Bool := c.isAlphanum || c == '_'

/-- Match semantics of a pattern of the form word-boundary, lo to hi
digits, word-boundary, at position i of cs: a boundary on the left, and
some run of k digits (lo ≤ k ≤ hi) from i with a boundary after it. -/
def digitsMatchAt (lo hi : Nat) (cs : List Char) (i : Nat) : Bool :=
  (decide (i = 0) || !(isWordChar (cs.getD (i - 1) ' '))) &&
  ((List.range' lo (hi + 1 - lo)).any fun k =>
    decide (i + k ≤ cs.length) && ((cs.drop i).take k).all Char.isDigit &&
    (decide (i + k = cs.length) || !(isWordChar (cs.getD (i + k) ' '))))

/-- The bounded-digit-run pattern (for instance the claim's 8-to-17-digit
pattern); digits have no case, so both oracles coincide. -/
def digitsRule (lo hi : Nat) (supported : Bool) : PatternRule :=
  { src := "digits"
    engineSupported := supported
    matchAt := digitsMatchAt lo hi
    matchAtCI := digitsMatchAt lo hi }

/-! Concrete instances used by the counterexamples and witnesses. -/

/-- The 8-to-17-digit account pattern of Scenario A, supported by the
engine search. -/
def bd817 : PatternRule := digitsRule 8 17 true

/-- Word rectangle of "Account" in the Scenario A page. -/
def rAccount : Rect := ⟨10, 10, 60, 20⟩

/-- Word rectangle of "Number:" in the Scenario A page. -/
def rNumber : Rect := ⟨65, 10, 110, 20⟩

/-- Word rectangle of "123456789" in the Scenario A page. -/
def rDigits : Rect := ⟨115, 10, 170, 20⟩

/-- Word rectangle of "Details" in the Scenario A page. -/
def rDetails : Rect := ⟨175, 10, 220, 20⟩

/-- The word layer of the Scenario A page, whose text layer is exactly
"Account Number: 123456789 Details". -/
def c2Words : List Word :=
  [⟨rAccount, "Account"⟩, ⟨rNumber, "Number:"⟩, ⟨rDigits, "123456789"⟩, ⟨rDetails, "Details"⟩]

/-- The Scenario A page, parameterized by what the OCR engine recognizes
on its raster. -/
def c2PageWith (toks : List OcrTok) : Page :=
  { rect := ⟨0, 0, 612, 792⟩, words := c2Words, ocrRaw := toks,
    pixWidth := 2550, pixHeight := 3300, ocrFails := false }

/-- An OCR token re-recognizing the digits of the Scenario A page on its
raster, at high confidence. -/
def c2Tok : OcrTok := ⟨"123456789", 91, 479, 42, 229, 41⟩

/-- A one-word page whose raster carries the same digits as its text
layer (raster and page coordinates coincide: 100 x 100). -/
def c1Rect : Rect := ⟨10, 10, 30, 15⟩

/-- Page for the no-overlap counterexample: the word "123456789" in the
text layer and the same token recognized by OCR at the same place. -/
def c1Page : Page :=
  { rect := ⟨0, 0, 100, 100⟩, words := [⟨c1Rect, "123456789"⟩],
    ocrRaw := [⟨"123456789", 90, 10, 10, 20, 5⟩],
    pixWidth := 100, pixHeight := 100, ocrFails := false }

/-- Page for the confidence-floor counterexample: a single clean digit
token recognized at confidence 55, above the claimed floor of 50. -/
def c3Page : Page :=
  { rect := ⟨0, 0, 100, 100⟩, words := [],
    ocrRaw := [⟨"999999999", 55, 5, 5, 50, 10⟩],
    pixWidth := 100, pixHeight := 100, ocrFails := false }

/-- Page for the coordinate-remap witness: one token spanning the whole
raster. -/
def c5Page : Page :=
  { rect := ⟨0, 0, 612, 792⟩, words := [],
    ocrRaw := [⟨"12345678", 95, 0, 0, 2550, 3300⟩],
    pixWidth := 2550, pixHeight := 3300, ocrFails := false }

/-- The full-raster token of the remap witness. -/
def c5Tok : OcrTok := ⟨"12345678", 95, 0, 0, 2550, 3300⟩

/-- Page for the engine-fallback witness: two words, one matched by a
pattern the engine supports, one matched only by the unsupported one. -/
def c6Page : Page :=
  { rect := ⟨0, 0, 100, 100⟩,
    words := [⟨⟨0, 0, 10, 10⟩, "barx"⟩, ⟨⟨20, 0, 30, 10⟩, "foo123x"⟩],
    ocrRaw := [], pixWidth := 100, pixHeight := 100, ocrFails := false }

/-- A pattern the engine supports, matching "barx". -/
def c6RuleOk : PatternRule := litRule "barx" true

/-- A pattern the engine cannot evaluate, matching "123" as a substring. -/
def c6RuleBad : PatternRule := litRule "123" false

/-- Page for the idempotence witness: one digit word, empty raster. -/
def c8Page : Page :=
  { rect := ⟨0, 0, 100, 100⟩, words := [⟨⟨0, 0, 10, 5⟩, "123456789"⟩],
    ocrRaw := [], pixWidth := 100, pixHeight := 100, ocrFails := false }

/-- A 20-letter filler word text for the idempotence counterexample. -/
def fillerText : String := "qwertyuiopasdfghjkzx"

/-- Page for the idempotence counterexample: enough native text to count
as text-bearing, one digit word matched on the first run, and a second
account number reachable only through OCR (inside an image).  The first
run finds one match and skips OCR; after the commit removes the matched
word, a second run finds nothing in the text, falls into the OCR pass and
commits a new region over the OCR token. -/
def c8xPage : Page :=
  { rect := ⟨0, 0, 100, 100⟩,
    words := [⟨⟨0, 10, 10, 15⟩, fillerText⟩, ⟨⟨12, 10, 22, 15⟩, fillerText⟩,
              ⟨⟨24, 10, 34, 15⟩, fillerText⟩, ⟨⟨36, 10, 46, 15⟩, fillerText⟩,
              ⟨⟨48, 10, 58, 15⟩, fillerText⟩, ⟨⟨60, 10, 70, 15⟩, "999999789"⟩],
    ocrRaw := [⟨"777777789", 90, 80, 0, 15, 5⟩],
    pixWidth := 100, pixHeight := 100, ocrFails := false }

/-- Page for the fallback-substring witness: a single token in which the
digit needle occurs strictly inside the token text. -/
def c10Page : Page :=
  { rect := ⟨0, 0, 100, 100⟩, words := [⟨⟨0, 0, 50, 10⟩, "AB123456789CD"⟩],
    ocrRaw := [], pixWidth := 100, pixHeight := 100, ocrFails := false }

/-- The literal needle rule of the fallback-substring witness, not
supported by the engine search. -/
def c10Rule : PatternRule := litRule "123456789" false

/-! Helper lemmas about the embedding. -/

theorem foldl_append_eq (f : α → List β) :
    ∀ (l : List α) (acc : List β),
      l.foldl (fun a p => a ++ f p) acc = acc ++ catMap f l
  | [], acc => by simp [catMap]
  | a :: l, acc => by
    simp only [List.foldl_cons, catMap]
    rw [foldl_append_eq f l (acc ++ f a), List.append_assoc]

theorem catMap_append (f : α → List β) :
    ∀ l1 l2 : List α, catMap f (l1 ++ l2) = catMap f l1 ++ catMap f l2
  | [], _ => rfl
  | a :: l1, l2 => by simp [catMap, catMap_append f l1 l2]

theorem mem_catMap {f : α → List β} {b : β} :
    ∀ {l : List α}, b ∈ catMap f l ↔ ∃ a ∈ l, b ∈ f a
  | [] => by simp [catMap]
  | a :: l => by
    simp only [catMap, List.mem_append, mem_catMap (l := l), List.mem_cons]
    constructor
    · rintro (h | ⟨x, hx, hb⟩)
      · exact ⟨a, Or.inl rfl, h⟩
      · exact ⟨x, Or.inr hx, hb⟩
    · rintro ⟨x, hx | hx, hb⟩
      · exact Or.inl (hx ▸ hb)
      · exact Or.inr ⟨x, hx, hb⟩

theorem catMap_eq_nil {f : α → List β} :
    ∀ {l : List α}, (∀ a ∈ l, f a = []) → catMap f l = []
  | [], _ => rfl
  | a :: l, h => by
    simp only [catMap, h a (by simp), List.nil_append]
    exact catMap_eq_nil fun x hx => h x (by simp [hx])

theorem filter_eq_nil_of_all {p : α → Bool} :
    ∀ {l : List α}, (∀ a ∈ l, p a = false) → l.filter p = []
  | [], _ => rfl
  | a :: l, h => by
    have ha := h a (by simp)
    simp only [List.filter_cons, ha, Bool.false_eq_true, if_false]
    exact filter_eq_nil_of_all fun x hx => h x (by simp [hx])

theorem textPhase_eq (page : Page) (patterns : List PatternRule) :
    textPhase page patterns = catMap (patternRegions page) patterns := by
  unfold textPhase
  rw [foldl_append_eq]
  simp

theorem ocrPhase_eq (patterns : List PatternRule) (inst : List (String × Rect)) :
    ocrPhase patterns inst =
      catMap (fun p => (inst.filter fun ti => reSearchCI p ti.1).map
        fun ti => ({ rect := ti.2, prov := Provenance.ocr } : Redaction)) patterns := by
  unfold ocrPhase
  rw [foldl_append_eq]
  simp

theorem find_eq_phases (page : Page) (patterns : List PatternRule) :
    find_and_redact_text_on_page page patterns =
      textPhase page patterns ++
        (if ocrTriggered page (textPhase page patterns).length then
          ocrPhase patterns (ocr_page_to_get_text_and_boxes page) else []) := by
  unfold find_and_redact_text_on_page
  by_cases h : ocrTriggered page (textPhase page patterns).length <;> simp [h]

theorem textPhase_subset_find {page : Page} {patterns : List PatternRule} {r : Redaction}
    (h : r ∈ textPhase page patterns) : r ∈ find_and_redact_text_on_page page patterns := by
  rw [find_eq_phases]
  exact List.mem_append_left _ h

theorem catMap_congr {f g : α → List β} (h : ∀ a, f a = g a) :
    ∀ l : List α, catMap f l = catMap g l
  | [] => rfl
  | a :: l => by simp only [catMap, h a, catMap_congr h l]

theorem patternRegions_congr_words {p q : Page} (h : p.words = q.words)
    (pat : PatternRule) : patternRegions p pat = patternRegions q pat := by
  unfold patternRegions search_for
  rw [h]

theorem textPhase_congr_words {p q : Page} (h : p.words = q.words)
    (patterns : List PatternRule) : textPhase p patterns = textPhase q patterns := by
  rw [textPhase_eq, textPhase_eq]
  exact catMap_congr (fun pat => patternRegions_congr_words h pat) patterns

theorem ocrTriggered_congr_words {p q : Page} (h : p.words = q.words) (n : Nat) :
    ocrTriggered p n = ocrTriggered q n := by
  unfold ocrTriggered is_likely_scanned_pdf pageText
  rw [h]

theorem mem_ocr_aux (pr : Rect) (pw ph : Int) (l : List OcrTok) (x : String × Rect) :
    (x ∈ l.filterMap fun t =>
      if t.conf > 60 then
        if t.text.trim ≠ "" then
          some (t.text.trim, remapRect pr pw ph t.left t.top t.width t.height)
        else none
      else none) ↔
    ∃ t ∈ l, t.conf > 60 ∧ t.text.trim ≠ "" ∧
      x = (t.text.trim, remapRect pr pw ph t.left t.top t.width t.height) := by
  rw [List.mem_filterMap]
  constructor
  · rintro ⟨t, ht, hx⟩
    by_cases h1 : t.conf > 60
    · by_cases h2 : t.text.trim ≠ ""
      · rw [if_pos h1, if_pos h2] at hx
        exact ⟨t, ht, h1, h2, (Option.some.inj hx).symm⟩
      · rw [if_pos h1, if_neg h2] at hx
        cases hx
    · rw [if_neg h1] at hx
      cases hx
  · rintro ⟨t, ht, h1, h2, hx⟩
    refine ⟨t, ht, ?_⟩
    rw [if_pos h1, if_pos h2, hx]

theorem mem_ocr_page {page : Page} {x : String × Rect} :
    x ∈ ocr_page_to_get_text_and_boxes page ↔
      page.ocrFails = false ∧ ∃ t ∈ page.ocrRaw, t.conf > 60 ∧ t.text.trim ≠ "" ∧
        x = (t.text.trim,
          remapRect page.rect page.pixWidth page.pixHeight t.left t.top t.width t.height) := by
  unfold ocr_page_to_get_text_and_boxes
  by_cases h : page.ocrFails
  · simp [h]
  · rw [if_neg h, mem_ocr_aux]
    simp [h]

theorem intersects_self {r : Rect} (hx : r.x0 < r.x1) (hy : r.y0 < r.y1) :
    r.intersects r = true := by
  simp [Rect.intersects, hx, hy]

theorem rectEq {r s : Rect} (h0 : r.x0 = s.x0) (h1 : r.y0 = s.y0)
    (h2 : r.x1 = s.x1) (h3 : r.y1 = s.y1) : r = s := by
  cases r; cases s; simp_all

theorem mem_patternRegions_of_match {page : Page} {p : PatternRule} {w : Word}
    (hw : w ∈ page.words) (hm : reSearch p w.text = true) :
    ∃ prov, ({ rect := w.rect, prov := prov } : Redaction) ∈ patternRegions page p := by
  unfold patternRegions search_for
  by_cases hs : p.engineSupported
  · refine ⟨Provenance.direct, ?_⟩
    simp only [hs, if_true]
    apply List.mem_map.mpr
    refine ⟨w.rect, ?_, rfl⟩
    apply List.mem_map.mpr
    exact ⟨w, List.mem_filter.mpr ⟨hw, hm⟩, rfl⟩
  · refine ⟨Provenance.fallbackToken, ?_⟩
    simp only [hs, if_false, Bool.false_eq_true]
    apply List.mem_map.mpr
    exact ⟨w, List.mem_filter.mpr ⟨hw, hm⟩, rfl⟩

theorem patternRegions_eq_nil {page : Page} {p : PatternRule}
    (h : ∀ w ∈ page.words, reSearch p w.text = false) : patternRegions page p = [] := by
  have hf : page.words.filter (fun w => reSearch p w.text) = [] := filter_eq_nil_of_all h
  unfold patternRegions search_for
  by_cases hs : p.engineSupported <;> simp [hs, hf]

theorem mem_words_apply {page : Page} {regions : List Rect} {w : Word} :
    w ∈ (apply_redactions page regions).words ↔
      w ∈ page.words ∧ ∀ r ∈ regions, w.rect.intersects r = false := by
  unfold apply_redactions
  simp only [List.mem_filter, Bool.not_eq_true', List.any_eq_false]
  simp [Bool.not_eq_true]

/-! Claim theorems. -/

/-- C1 counterexample: the claimed page invariant is false on the code.
On c1Page with the 8-to-17-digit pattern, the direct search commits a
region over the word "123456789" and the OCR pass then commits a region
over the same token, which intersects the already-committed region: the
candidate was never tested against the accepted set. -/
theorem noOverlap_counterexample :
    noOverlapInvariant [] (find_and_redact_text_on_page c1Page [digitsRule 8 17 true]) = false :=
  of_decide_eq_true (by with_unfolding_all rfl)

/-- C1 amended: the code applies no containment or intersection test at
all — every candidate match of every matcher is committed unconditionally,
the page output being exactly the direct/fallback annotations followed,
when the OCR pass triggers, by every OCR candidate. -/
theorem no_dedup_commits_all (page : Page) (patterns : List PatternRule) :
    find_and_redact_text_on_page page patterns =
      textPhase page patterns ++
        (if ocrTriggered page (textPhase page patterns).length then
          ocrPhase patterns (ocr_page_to_get_text_and_boxes page) else []) :=
  find_eq_phases page patterns

/-- C2 counterexample: on the page whose text layer is exactly
"Account Number: 123456789 Details" with the 8-to-17-digit pattern, the
stripped text is only 34 characters, so the OCR pass also runs; when the
OCR engine re-recognizes the digits on the raster the page commits two
regions, not exactly one — the second with OCR provenance. -/
theorem scenarioA_counterexample :
    (find_and_redact_text_on_page (c2PageWith [c2Tok]) [bd817]).length = 2 ∧
    (find_and_redact_text_on_page (c2PageWith [c2Tok]) [bd817]).map Redaction.prov =
      [Provenance.direct, Provenance.ocr] :=
  of_decide_eq_true (by with_unfolding_all rfl)

/-- C2 amended: on the Scenario A page the direct search commits exactly
one region, covering the word "123456789" and touching no part of
"Details", provided the (necessarily triggered) OCR pass yields no token
matching the pattern; an OCR token re-recognizing the digits would add a
second, overlapping region. -/
theorem scenarioA_redaction (toks : List OcrTok)
    (h : ∀ t ∈ toks, t.conf > 60 → reSearchCI bd817 t.text.trim = false) :
    find_and_redact_text_on_page (c2PageWith toks) [bd817] =
      [{ rect := rDigits, prov := Provenance.direct }] ∧
    rDigits.intersects rDetails = false := by
  refine ⟨?_, of_decide_eq_true (by with_unfolding_all rfl)⟩
  have hw : (c2PageWith toks).words = (c2PageWith []).words := rfl
  have htp : textPhase (c2PageWith toks) [bd817] =
      [{ rect := rDigits, prov := Provenance.direct }] := by
    rw [textPhase_congr_words hw]
    exact of_decide_eq_true (by with_unfolding_all rfl)
  rw [find_eq_phases, htp, ocrTriggered_congr_words hw]
  have htrig : ocrTriggered (c2PageWith [])
      ([({ rect := rDigits, prov := Provenance.direct } : Redaction)]).length = true :=
    of_decide_eq_true (by with_unfolding_all rfl)
  rw [if_pos htrig]
  have hocr : ocrPhase [bd817] (ocr_page_to_get_text_and_boxes (c2PageWith toks)) = [] := by
    rw [ocrPhase_eq]
    apply catMap_eq_nil
    intro p hp
    have hp' : p = bd817 := by
      rcases List.mem_singleton.mp hp with h
      exact h
    subst hp'
    have hfil : (ocr_page_to_get_text_and_boxes (c2PageWith toks)).filter
        (fun ti => reSearchCI bd817 ti.1) = [] := by
      apply filter_eq_nil_of_all
      intro x hx
      obtain ⟨-, t, ht, h1, h2, hx⟩ := mem_ocr_page.mp hx
      have : x.1 = t.text.trim := by rw [hx]
      rw [this]
      exact h t ht h1
    rw [hfil]
    rfl
  rw [hocr]
  rfl

/-- C2 amended, witness at the concrete input with an empty OCR token
list. -/
theorem scenarioA_redaction_witness :
    (∀ t ∈ ([] : List OcrTok), t.conf > 60 → reSearchCI bd817 t.text.trim = false) ∧
    find_and_redact_text_on_page (c2PageWith []) [bd817] =
      [{ rect := rDigits, prov := Provenance.direct }] :=
  ⟨by simp, (scenarioA_redaction [] (by simp)).1⟩

/-- C3 counterexample: a clean OCR token at confidence 55 — above the
claimed floor of 50 and with non-empty trimmed text — is nevertheless
discarded by the code (the hardcoded cutoff is strictly greater than 60),
and can produce no match or region even for a pattern it matches. -/
theorem confidenceFloor_counterexample :
    ocr_page_to_get_text_and_boxes c3Page = [] ∧
    find_and_redact_text_on_page c3Page [digitsRule 8 17 true] = [] ∧
    ¬((55 : Int) < 50) ∧ "999999999".trim ≠ "" :=
  of_decide_eq_true (by with_unfolding_all rfl)

/-- C3 amended: the OCR pass keeps a recognized token exactly when its
confidence is strictly greater than 60 (a hardcoded cutoff, not a
configurable floor of 50) and its trimmed text is non-empty; and every
OCR-provenance region the page pipeline commits comes from such a
surviving token. -/
theorem ocr_token_filter (page : Page) :
    (∀ x : String × Rect, x ∈ ocr_page_to_get_text_and_boxes page ↔
      (page.ocrFails = false ∧ ∃ t ∈ page.ocrRaw, t.conf > 60 ∧ t.text.trim ≠ "" ∧
        x = (t.text.trim,
          remapRect page.rect page.pixWidth page.pixHeight t.left t.top t.width t.height))) ∧
    (∀ (patterns : List PatternRule) (r : Redaction),
      r ∈ find_and_redact_text_on_page page patterns → r.prov = Provenance.ocr →
      ∃ t ∈ page.ocrRaw, t.conf > 60 ∧ t.text.trim ≠ "" ∧
        r.rect = remapRect page.rect page.pixWidth page.pixHeight t.left t.top t.width t.height) := by
  constructor
  · intro x
    exact mem_ocr_page
  · intro patterns r hr hprov
    rw [find_eq_phases] at hr
    rcases List.mem_append.mp hr with h | h
    · exfalso
      rw [textPhase_eq] at h
      obtain ⟨p, -, hp⟩ := mem_catMap.mp h
      unfold patternRegions at hp
      rcases hs : search_for p page with rects | rects <;> rw [hs] at hp
      · obtain ⟨w, -, hw⟩ := List.mem_map.mp hp
        rw [← hw] at hprov
        cases hprov
      · obtain ⟨q, -, hq⟩ := List.mem_map.mp hp
        rw [← hq] at hprov
        cases hprov
    · by_cases htr : ocrTriggered page (textPhase page patterns).length
      · rw [if_pos htr, ocrPhase_eq] at h
        obtain ⟨p, -, hp⟩ := mem_catMap.mp h
        obtain ⟨ti, hti, hmap⟩ := List.mem_map.mp hp
        have hti' := List.mem_filter.mp hti
        obtain ⟨-, t, ht, h1, h2, hx⟩ := mem_ocr_page.mp hti'.1
        refine ⟨t, ht, h1, h2, ?_⟩
        rw [← hmap]
        show ti.2 = _
        rw [hx]
      · rw [if_neg htr] at h
        cases h

/-- C3 amended, witness: the OCR region committed on c1Page traces back to
its surviving raw token. -/
theorem ocr_token_filter_witness :
    ({ rect := ⟨10, 10, 30, 15⟩, prov := Provenance.ocr } : Redaction)
        ∈ find_and_redact_text_on_page c1Page [digitsRule 8 17 true] ∧
    ∃ t ∈ c1Page.ocrRaw, t.conf > 60 ∧ t.text.trim ≠ "" ∧
      ({ rect := ⟨10, 10, 30, 15⟩, prov := Provenance.ocr } : Redaction).rect =
        remapRect c1Page.rect c1Page.pixWidth c1Page.pixHeight t.left t.top t.width t.height :=
  ⟨of_decide_eq_true (by with_unfolding_all rfl),
   (ocr_token_filter c1Page).2 [digitsRule 8 17 true] _
     (of_decide_eq_true (by with_unfolding_all rfl)) rfl⟩

/-- C4: a document whose protection is not openable with the empty
credential makes the run abort before any page is processed, with nothing
written to disk; a document openable with the empty credential is processed
exactly like an unencrypted one. -/
theorem encryption_gate (pages : List Page) (patterns : List PatternRule) :
    redact_account_numbers_from_pdf true ⟨pages, Protection.passwordRequired⟩ patterns =
      { totalRedactions := 0, pagesProcessed := 0, saved := false, errored := true } ∧
    redact_account_numbers_from_pdf true ⟨pages, Protection.emptyOpenable⟩ patterns =
      redact_account_numbers_from_pdf true ⟨pages, Protection.notEncrypted⟩ patterns :=
  ⟨rfl, rfl⟩

/-- C5: every surviving OCR token is remapped by the linear pixel-to-page
scaling into the OCR output, and a token whose pixel box spans the whole
raster remaps exactly onto the whole page rectangle (page rectangles have
origin zero, raster dimensions are positive). -/
theorem ocr_remap (page : Page) (t : OcrTok)
    (hf : page.ocrFails = false) (ht : t ∈ page.ocrRaw)
    (hc : t.conf > 60) (hne : t.text.trim ≠ "") :
    (t.text.trim, remapRect page.rect page.pixWidth page.pixHeight t.left t.top t.width t.height)
        ∈ ocr_page_to_get_text_and_boxes page ∧
    (page.rect.x0 = 0 → page.rect.y0 = 0 → 0 < page.pixWidth → 0 < page.pixHeight →
      remapRect page.rect page.pixWidth page.pixHeight 0 0 page.pixWidth page.pixHeight
        = page.rect) := by
  constructor
  · exact mem_ocr_page.mpr ⟨hf, t, ht, hc, hne, rfl⟩
  · intro h0 h1 hpw hph
    have hW : ((page.pixWidth : Int) : Rat) ≠ 0 := Int.cast_ne_zero.mpr (by omega)
    have hH : ((page.pixHeight : Int) : Rat) ≠ 0 := Int.cast_ne_zero.mpr (by omega)
    apply rectEq
    · show ((0 : Int) : Rat) / _ * _ = _
      simp [h0]
    · show ((0 : Int) : Rat) / _ * _ = _
      simp [h1]
    · show (((0 + page.pixWidth : Int) : Rat) / _) * Rect.width page.rect = _
      rw [zero_add, div_self hW, one_mul, Rect.width, h0, sub_zero]
    · show (((0 + page.pixHeight : Int) : Rat) / _) * Rect.height page.rect = _
      rw [zero_add, div_self hH, one_mul, Rect.height, h1, sub_zero]

/-- C5 witness: the full-raster token of c5Page lands in the OCR output
and its remapped rectangle is exactly the page rectangle. -/
theorem ocr_remap_witness :
    c5Tok ∈ c5Page.ocrRaw ∧ c5Tok.conf > 60 ∧ c5Tok.text.trim ≠ "" ∧
    (c5Tok.text.trim,
      remapRect c5Page.rect c5Page.pixWidth c5Page.pixHeight
        c5Tok.left c5Tok.top c5Tok.width c5Tok.height)
      ∈ ocr_page_to_get_text_and_boxes c5Page ∧
    remapRect c5Page.rect c5Page.pixWidth c5Page.pixHeight 0 0
        c5Page.pixWidth c5Page.pixHeight = c5Page.rect := by
  have h := ocr_remap c5Page c5Tok rfl (List.mem_singleton.mpr rfl)
    (of_decide_eq_true (by with_unfolding_all rfl))
    (of_decide_eq_true (by with_unfolding_all rfl))
  exact ⟨List.mem_singleton.mpr rfl,
    of_decide_eq_true (by with_unfolding_all rfl),
    of_decide_eq_true (by with_unfolding_all rfl),
    h.1, h.2 rfl rfl (of_decide_eq_true (by with_unfolding_all rfl))
      (of_decide_eq_true (by with_unfolding_all rfl))⟩

/-- C6: when the document engine cannot evaluate one pattern, exactly that
pattern is matched word-by-word with the native regex engine on the page:
the page's direct/fallback output is the output for the earlier patterns,
followed by the rectangle of every word the failing pattern matches,
followed by the output for the later patterns — nothing dropped, no effect
on the other patterns. -/
theorem fallback_on_engine_failure (page : Page) (ps1 : List PatternRule)
    (p : PatternRule) (ps2 : List PatternRule) (hp : p.engineSupported = false) :
    textPhase page (ps1 ++ p :: ps2) =
      textPhase page ps1 ++
        ((page.words.filter fun w => reSearch p w.text).map
          fun w => { rect := w.rect, prov := Provenance.fallbackToken }) ++
        textPhase page ps2 := by
  have hpr : patternRegions page p =
      (page.words.filter fun w => reSearch p w.text).map
        (fun w => ({ rect := w.rect, prov := Provenance.fallbackToken } : Redaction)) := by
    unfold patternRegions search_for
    simp [hp]
  rw [textPhase_eq page (ps1 ++ p :: ps2), catMap_append,
    textPhase_eq page ps1, textPhase_eq page ps2]
  show _ ++ (patternRegions page p ++ _) = _
  rw [hpr, List.append_assoc]

/-- C6 witness at a concrete page with one supported and one unsupported
pattern. -/
theorem fallback_on_engine_failure_witness :
    c6RuleBad.engineSupported = false ∧
    textPhase c6Page ([c6RuleOk] ++ c6RuleBad :: []) =
      textPhase c6Page [c6RuleOk] ++
        ((c6Page.words.filter fun w => reSearch c6RuleBad w.text).map
          fun w => { rect := w.rect, prov := Provenance.fallbackToken }) ++
        textPhase c6Page [] :=
  ⟨rfl, fallback_on_engine_failure c6Page [c6RuleOk] c6RuleBad [] rfl⟩

/-- C7: a page is classified likely-scanned exactly when its stripped
native text is shorter than 100 characters, and the OCR pass triggers
exactly when the page is likely-scanned, or the direct/fallback count is
zero and the native text is non-empty but shorter than 500 characters. -/
theorem classification_and_ocr_trigger (page : Page) (n : Nat) :
    (is_likely_scanned_pdf page 100 = true ↔ (pageText page).trim.length < 100) ∧
    (ocrTriggered page n = true ↔
      ((pageText page).trim.length < 100 ∨
        (n = 0 ∧ pageText page ≠ "" ∧ (pageText page).length < 500))) := by
  constructor
  · simp [is_likely_scanned_pdf]
  · unfold ocrTriggered is_likely_scanned_pdf
    simp only [Bool.or_eq_true, Bool.and_eq_true, decide_eq_true_eq]
    constructor
    · rintro (h | ⟨h0, h5⟩)
      · exact Or.inl h
      · by_cases he : pageText page = ""
        · refine Or.inl ?_
          rw [he]
          exact of_decide_eq_true (by with_unfolding_all rfl)
        · exact Or.inr ⟨h0, he, h5⟩
    · rintro (h | ⟨h0, -, h5⟩)
      · exact Or.inl h
      · exact Or.inr ⟨h0, h5⟩

/-- C8 counterexample: second runs are not idempotent.  On c8xPage the
first run redacts the digit word and, because matches were found and the
text is long enough, never runs OCR; after the commit removes that word, a
second run with the same pattern finds no text match, falls below the
500-character threshold with a zero count, runs OCR, and commits a new
region for the account number that only the raster contains. -/
theorem idempotence_counterexample :
    0 < (find_and_redact_text_on_page c8xPage [digitsRule 8 17 true]).length ∧
    find_and_redact_text_on_page
      (apply_redactions c8xPage
        ((find_and_redact_text_on_page c8xPage [digitsRule 8 17 true]).map Redaction.rect))
      [digitsRule 8 17 true] ≠ [] :=
  of_decide_eq_true (by with_unfolding_all rfl)

/-- C8 amended: a second run on the committed page yields zero new regions
provided the second run's OCR pass (if it triggers) matches no surviving
token: the commit removed every word any pattern matches, so the direct and
fallback matchers find nothing; only newly OCR-reachable content can still
produce regions.  Word boxes are assumed nondegenerate. -/
theorem idempotence_second_run (page : Page) (patterns : List PatternRule)
    (hw : ∀ w ∈ page.words, w.rect.x0 < w.rect.x1 ∧ w.rect.y0 < w.rect.y1)
    (hc : 0 < (find_and_redact_text_on_page page patterns).length)
    (hocr : ∀ x ∈ ocr_page_to_get_text_and_boxes
        (apply_redactions page ((find_and_redact_text_on_page page patterns).map Redaction.rect)),
      ∀ p ∈ patterns, reSearchCI p x.1 = false) :
    find_and_redact_text_on_page
      (apply_redactions page ((find_and_redact_text_on_page page patterns).map Redaction.rect))
      patterns = [] := by
  clear hc
  have hwords : ∀ p ∈ patterns, ∀ w ∈ (apply_redactions page
      ((find_and_redact_text_on_page page patterns).map Redaction.rect)).words,
      reSearch p w.text = false := by
    intro p hp w hw'
    obtain ⟨hwp, hsurv⟩ := mem_words_apply.mp hw'
    by_contra hne
    have hm : reSearch p w.text = true := by
      revert hne
      cases reSearch p w.text <;> simp
    obtain ⟨prov, hmem⟩ := mem_patternRegions_of_match hwp hm
    have hmem2 : ({ rect := w.rect, prov := prov } : Redaction) ∈ textPhase page patterns := by
      rw [textPhase_eq]
      exact mem_catMap.mpr ⟨p, hp, hmem⟩
    have hmem3 := textPhase_subset_find hmem2
    have hrect : w.rect ∈ (find_and_redact_text_on_page page patterns).map Redaction.rect :=
      List.mem_map.mpr ⟨_, hmem3, rfl⟩
    have hfalse := hsurv _ hrect
    have htrue := intersects_self (hw w hwp).1 (hw w hwp).2
    rw [hfalse] at htrue
    cases htrue
  have htext : textPhase (apply_redactions page
      ((find_and_redact_text_on_page page patterns).map Redaction.rect)) patterns = [] := by
    rw [textPhase_eq]
    apply catMap_eq_nil
    intro p hp
    exact patternRegions_eq_nil fun w hw' => hwords p hp w hw'
  have hophase : ocrPhase patterns (ocr_page_to_get_text_and_boxes (apply_redactions page
      ((find_and_redact_text_on_page page patterns).map Redaction.rect))) = [] := by
    rw [ocrPhase_eq]
    apply catMap_eq_nil
    intro p hp
    have hfil : (ocr_page_to_get_text_and_boxes (apply_redactions page
        ((find_and_redact_text_on_page page patterns).map Redaction.rect))).filter
        (fun ti => reSearchCI p ti.1) = [] :=
      filter_eq_nil_of_all fun x hx => hocr x hx p hp
    rw [hfil]
    rfl
  rw [find_eq_phases, htext, hophase]
  simp

/-- C8 amended, witness: on c8Page the first run commits one region and
the second run commits none. -/
theorem idempotence_second_run_witness :
    (∀ w ∈ c8Page.words, w.rect.x0 < w.rect.x1 ∧ w.rect.y0 < w.rect.y1) ∧
    0 < (find_and_redact_text_on_page c8Page [digitsRule 8 17 true]).length ∧
    find_and_redact_text_on_page
      (apply_redactions c8Page
        ((find_and_redact_text_on_page c8Page [digitsRule 8 17 true]).map Redaction.rect))
      [digitsRule 8 17 true] = [] :=
  ⟨of_decide_eq_true (by with_unfolding_all rfl),
   of_decide_eq_true (by with_unfolding_all rfl),
   idempotence_second_run c8Page [digitsRule 8 17 true]
     (of_decide_eq_true (by with_unfolding_all rfl))
     (of_decide_eq_true (by with_unfolding_all rfl))
     (of_decide_eq_true (by with_unfolding_all rfl))⟩

/-- C9: the output file is written exactly when the total redaction count
is positive; a run over an unencrypted document with an existing input
completes without the error handler firing, so a zero-redaction run still
completes, reports zero and writes nothing. -/
theorem save_iff_redactions (inputExists : Bool) (doc : Document)
    (patterns : List PatternRule) :
    (redact_account_numbers_from_pdf inputExists doc patterns).saved =
      decide (0 < (redact_account_numbers_from_pdf inputExists doc patterns).totalRedactions) ∧
    ∀ pages : List Page,
      (redact_account_numbers_from_pdf true ⟨pages, Protection.notEncrypted⟩ patterns).errored
        = false := by
  constructor
  · cases inputExists
    · rfl
    · obtain ⟨pages, prot⟩ := doc
      cases prot <;> rfl
  · intro pages
    rfl

/-- C10: with an engine-unsupported pattern, the fallback token matcher
yields one region per word whose text the pattern matches anywhere inside
it (Python re.search semantics: some start position matches), each region
being exactly that single word's rectangle; the case-insensitive oracle is
never consulted. -/
theorem fallback_substring_semantics (page : Page) (p : PatternRule)
    (hp : p.engineSupported = false) :
    patternRegions page p =
      (page.words.filter fun w => reSearch p w.text).map
        (fun w => { rect := w.rect, prov := Provenance.fallbackToken }) ∧
    (∀ s : String, reSearch p s = true ↔ ∃ i, i ≤ s.length ∧ p.matchAt s.data i = true) ∧
    (∀ ci, patternRegions page { p with matchAtCI := ci } = patternRegions page p) := by
  refine ⟨?_, ?_, ?_⟩
  · unfold patternRegions search_for
    simp [hp]
  · intro s
    simp [reSearch, List.any_eq_true, List.mem_range, Nat.lt_succ_iff]
  · intro ci
    unfold patternRegions search_for
    simp [hp]
    rfl

/-- C10 witness: the needle "123456789" occurring strictly inside the word
"AB123456789CD" (no full-token match, not at position zero) yields exactly
that word's rectangle as a fallback region. -/
theorem fallback_substring_semantics_witness :
    c10Rule.engineSupported = false ∧
    patternRegions c10Page c10Rule =
      [{ rect := ⟨0, 0, 50, 10⟩, prov := Provenance.fallbackToken }] ∧
    reSearch c10Rule "AB123456789CD" = true ∧
    c10Rule.matchAt "AB123456789CD".data 0 = false :=
  ⟨rfl,
   ((fallback_substring_semantics c10Page c10Rule rfl).1).trans
     (of_decide_eq_true (by with_unfolding_all rfl)),
   of_decide_eq_true (by with_unfolding_all rfl),
   of_decide_eq_true (by with_unfolding_all rfl)⟩

end PdfRedact
